import Mathlib

/-!
Verification of the voice resolution and speech I/O subsystem
(web/src/lib/utils.ts). The TypeScript source is embedded shallowly:
strings are modelled through their character lists, the asynchronous
catalog loader and the speak session machinery are modelled as explicit
state passing, and every platform interaction is an explicit parameter.
-/

namespace SpeechCore

/-! ### Character and string helpers mirroring the JavaScript primitives -/

/-- JavaScript whitespace test, restricted to the ASCII whitespace
characters that matter here (space, tab, newline, carriage return,
vertical tab, form feed). Mirrors what `String.prototype.trim` removes. -/
def jsIsWS (c : Char) : Bool :=
  c = ' ' || c = '\t' || c = '\n' || c = '\r' || c = '\x0b' || c = '\x0c'

/-- Remove leading and trailing whitespace from a character list,
mirroring `String.prototype.trim`. -/
def trimChars (cs : List Char) : List Char :=
  ((cs.dropWhile jsIsWS).reverse.dropWhile jsIsWS).reverse

/-- Model of `String.prototype.trim`. -/
def jsTrim (s : String) : String := ⟨trimChars s.data⟩

/-- Model of `String.prototype.toLowerCase` (ASCII range). -/
def jsToLower (s : String) : String := ⟨s.data.map Char.toLower⟩

/-- Model of `s.startsWith(p)`. -/
def jsStartsWith (s p : String) : Bool := p.data.isPrefixOf s.data

/-- Model of `w.split("-")[0]`: the characters before the first hyphen. -/
def beforeHyphen (s : String) : String := ⟨s.data.takeWhile (fun c => c ≠ '-')⟩

/-! ### normalizeLang (utils.ts lines 87-96) -/

/-- The label-to-tag table `LANG_TO_TAG` from utils.ts. -/
def LANG_TO_TAG : List (String × String) :=
  [("auto", ""), ("english", "en-US"), ("hindi", "hi-IN"), ("tamil", "ta-IN"),
   ("telugu", "te-IN"), ("malayalam", "ml-IN"), ("kannada", "kn-IN"),
   ("bengali", "bn-IN"), ("gujarati", "gu-IN"), ("marathi", "mr-IN"),
   ("urdu", "ur-PK"), ("arabic", "ar-SA"), ("french", "fr-FR"),
   ("german", "de-DE"), ("spanish", "es-ES"), ("italian", "it-IT"),
   ("chinese", "zh-CN"), ("japanese", "ja-JP"), ("korean", "ko-KR"),
   ("russian", "ru-RU"), ("turkish", "tr-TR"), ("portuguese", "pt-BR")]

/-- Table lookup, `LANG_TO_TAG[key]`. -/
def lookupTag (key : String) : Option String :=
  (LANG_TO_TAG.find? (fun e => e.1 == key)).map (fun e => e.2)

def isLowerLetter (c : Char) : Bool := 'a' ≤ c && c ≤ 'z'

def isUpperLetter (c : Char) : Bool := 'A' ≤ c && c ≤ 'Z'

/-- Full-match semantics of the regex `^[a-z]{2,3}(-[A-Z]{2})?$`:
two or three lowercase letters, optionally followed by a hyphen and two
uppercase letters. The case analysis on lengths 2, 3, 5 and 6 is
equivalent to the regex language. -/
def matchesTagShape : List Char → Bool
  | [a, b] => isLowerLetter a && isLowerLetter b
  | [a, b, c] => isLowerLetter a && isLowerLetter b && isLowerLetter c
  | [a, b, h, d, e] =>
      isLowerLetter a && isLowerLetter b && h = '-' &&
      isUpperLetter d && isUpperLetter e
  | [a, b, c, h, d, e] =>
      isLowerLetter a && isLowerLetter b && isLowerLetter c && h = '-' &&
      isUpperLetter d && isUpperLetter e
  | _ => false

/-- utils.ts `normalizeLang`: `undefined` inputs and the empty string are
unspecified; the key is the trimmed, lowercased input; `"auto"` is
unspecified; a table hit returns the mapped tag (falsy table values fall
through, mirroring `if (LANG_TO_TAG[key])`); a key matching the tag-shape
regex passes the original input through; everything else is unspecified. -/
def normalizeLang (input : Option String) : Option String :=
  match input with
  | none => none
  | some s =>
    if s = "" then none
    else
      let key := jsToLower (jsTrim s)
      if key = "auto" then none
      else
        match lookupTag key with
        | some t =>
            if t = "" then
              if matchesTagShape key.data then some s else none
            else some t
        | none => if matchesTagShape key.data then some s else none

/-! ### Voice model and selection (utils.ts lines 100-199) -/

/-- A platform voice: `SpeechSynthesisVoice` restricted to the fields the
code reads (`name`, `voiceURI`, `lang`). Immutable. -/
structure Voice where
  name : String
  voiceURI : String
  lang : String
deriving DecidableEq, Repr

/-- The TTSSex type of utils.ts: `"male" | "female" | "auto"`. -/
inductive TTSSex where
  | male
  | female
  | auto
deriving DecidableEq, Repr

/-- Word characters for the regex word-boundary `\b` (JavaScript class
`[A-Za-z0-9_]`). -/
def isWordChar (c : Char) : Bool :=
  ('a' ≤ c && c ≤ 'z') || ('A' ≤ c && c ≤ 'Z') || ('0' ≤ c && c ≤ '9') || c = '_'

def headIsWordChar : List Char → Bool
  | [] => false
  | c :: _ => isWordChar c

def optIsWordChar : Option Char → Bool
  | none => false
  | some c => isWordChar c

/-- Scan for an occurrence of `target` delimited by word boundaries on
both sides, that is with no word character immediately before or after:
the semantics of the regex `\bt\b` for a single-letter `t`. -/
def hasIsolatedCharAux (target : Char) : Option Char → List Char → Bool
  | _, [] => false
  | prev, c :: rest =>
      (c = target && !optIsWordChar prev && !headIsWordChar rest) ||
      hasIsolatedCharAux target (some c) rest

def hasIsolatedChar (target : Char) (cs : List Char) : Bool :=
  hasIsolatedCharAux target none cs

/-- Substring containment, `sub` occurring contiguously in `hay`. -/
def containsSub : List Char → List Char → Bool
  | [], sub => sub.isEmpty
  | c :: t, sub => sub.isPrefixOf (c :: t) || containsSub t sub

/-- Female markers of the regex in `inferGender`:
`\bf(emale)?\b|salli|susan|victoria|zira|nicky|helena|natasha|samantha|eva|female`.
The whole-match test is equivalent to: any of the plain substrings occurs,
or the letter f occurs as an isolated word (the word-delimited "female"
case is subsumed by the plain "female" substring alternative). -/
def femaleTest (n : List Char) : Bool :=
  (["salli", "susan", "victoria", "zira", "nicky", "helena", "natasha",
    "samantha", "eva", "female"].any (fun s => containsSub n s.data)) ||
  hasIsolatedChar 'f' n

/-- Male markers of the regex in `inferGender`:
`\bm(ale)?\b|daniel|alex|fred|george|thomas|xander|male`. -/
def maleTest (n : List Char) : Bool :=
  (["daniel", "alex", "fred", "george", "thomas", "xander", "male"].any
    (fun s => containsSub n s.data)) ||
  hasIsolatedChar 'm' n

/-- utils.ts `inferGender`: lowercase the concatenation of name and URI,
test the female markers first, then the male markers, otherwise `auto`. -/
def inferGender (v : Voice) : TTSSex :=
  let n := (jsToLower (v.name ++ " " ++ v.voiceURI)).data
  if femaleTest n then .female
  else if maleTest n then .male
  else .auto

/-- utils.ts `startsWithLangTag`: a missing or empty `wanted` matches
every voice; otherwise compare lowercased tags for equality, or test that
the voice tag starts with the base language of `wanted` followed by a
hyphen. -/
def startsWithLangTag (voiceLang : String) (wanted : Option String) : Bool :=
  match wanted with
  | none => true
  | some w =>
      if w = "" then true
      else
        let v := jsToLower voiceLang
        let wl := jsToLower w
        v == wl || jsStartsWith v (beforeHyphen wl ++ "-")

/-- The effective language filter of `pickVoice`,
`voices.filter((v) => startsWithLangTag(v.lang || "", wanted))`. -/
def voicesByLang (voices : List Voice) (w : String) : List Voice :=
  voices.filter (fun v => startsWithLangTag v.lang (some w))

/-- The shared selection step of `pickVoice`: when a gender preference is
explicit, return the first filtered voice whose inferred gender matches,
if any; otherwise (or when the preference is `auto`) return the first
filtered voice. -/
def genderThenFirst (l : List Voice) (gender : TTSSex) : Option Voice :=
  if gender ≠ .auto then
    match l.find? (fun v => inferGender v == gender) with
    | some g => some g
    | none => l.head?
  else l.head?

/-- The `wanted` tag of `pickVoice`: `langHint || "en-US"` (both a missing
hint and an empty-string hint fall back to `"en-US"`). -/
def wantedOf : Option String → String
  | none => "en-US"
  | some h => if h = "" then "en-US" else h

/-- utils.ts `pickVoice`: filter by the wanted language and apply the
gender-then-first rule; if the filter is empty, retry with English
(`"en-US"`); if that is also empty, return the first voice of the whole
catalog (none for an empty catalog). -/
def pickVoice (voices : List Voice) (langHint : Option String)
    (gender : TTSSex) : Option Voice :=
  let wanted := wantedOf langHint
  let byLang := voicesByLang voices wanted
  if byLang.length ≠ 0 then genderThenFirst byLang gender
  else
    let en := voicesByLang voices "en-US"
    if en.length ≠ 0 then genderThenFirst en gender
    else voices.head?

/-! ### Voice catalog loader (utils.ts lines 102-149)

The module-level mutable state (`cachedVoices`, `voicesPromise`) and the
observable platform resources are modelled as an explicit record; a
`getVoices()` call is a state transition taking the platform voice-list
snapshot visible at call time. -/

/-- Mutable loader state plus resource counters: `cachedVoices` and the
settled value of `voicesPromise` model the two module-level variables;
`loadsStarted`, `changeRegistrations` and `pollTimers` count the load
sequences, live `voiceschanged` registrations and live poll intervals. -/
structure LoaderState where
  cachedVoices : Option (List Voice)
  promiseStarted : Bool
  promiseValue : Option (List Voice)
  loadsStarted : Nat
  changeRegistrations : Nat
  pollTimers : Nat
deriving DecidableEq, Repr

/-- The state before any `getVoices()` call. -/
def initLoaderState : LoaderState :=
  { cachedVoices := none, promiseStarted := false, promiseValue := none,
    loadsStarted := 0, changeRegistrations := 0, pollTimers := 0 }

/-- What a `getVoices()` call returns to its caller: an immediately
resolved list, or the shared in-flight promise. -/
inductive CallOutcome where
  | resolvedNow (v : List Voice)
  | joinedPromise
deriving DecidableEq, Repr

/-- The body of the promise executor when a load starts: the synchronous
`tryResolve()` uses the platform snapshot; on success it caches and
settles at once (returning before any listener or timer is installed),
otherwise one `voiceschanged` registration and one poll interval are
created. -/
def startLoad (snapshot : List Voice) (s : LoaderState) :
    LoaderState × CallOutcome :=
  if snapshot.length ≠ 0 then
    ({ s with cachedVoices := some snapshot, promiseStarted := true,
              promiseValue := some snapshot,
              loadsStarted := s.loadsStarted + 1 },
     .resolvedNow snapshot)
  else
    ({ s with promiseStarted := true,
              loadsStarted := s.loadsStarted + 1,
              changeRegistrations := s.changeRegistrations + 1,
              pollTimers := s.pollTimers + 1 },
     .joinedPromise)

/-- utils.ts `getVoices`: a cached non-empty list resolves immediately;
an in-flight (or settled) promise is returned to the caller unchanged;
otherwise a new load starts. -/
def getVoicesCall (snapshot : List Voice) (s : LoaderState) :
    LoaderState × CallOutcome :=
  if (s.cachedVoices.getD []).length ≠ 0 then
    (s, .resolvedNow (s.cachedVoices.getD []))
  else if s.promiseStarted then (s, .joinedPromise)
  else startLoad snapshot s

/-- The poll interval of `getVoices`: `sample k` is the platform voice
list observed by the k-th timer tick. Each tick increments `attempts`,
tries to resolve with the sampled list, and otherwise stops once
`attempts > 10`, resolving with the empty list. Returns the resolved
list and the value of the attempts counter at resolution. -/
def runPoll (sample : Nat → List Voice) (attempts : Nat) :
    List Voice × Nat :=
  let a := attempts + 1
  let v := sample a
  if v.length ≠ 0 then (v, a)
  else if a > 10 then ([], a)
  else runPoll sample a
termination_by 11 - attempts
decreasing_by simp_wf; omega

/-- The timeout branch of the poll interval: the timer clears itself,
the `voiceschanged` listener is removed, and when nothing resolved the
promise earlier the cache is set to the empty list and the promise is
settled with the empty list. -/
def pollTimeout (s : LoaderState) : LoaderState :=
  let s1 := { s with pollTimers := s.pollTimers - 1,
                     changeRegistrations := s.changeRegistrations - 1 }
  match s1.cachedVoices with
  | none => { s1 with cachedVoices := some [], promiseValue := some [] }
  | some _ => s1

/-- The success path of the event-or-poll race: `tryResolve()` observes a
non-empty list `v`, caches it and settles the shared promise with it. -/
def completeLoad (v : List Voice) (s : LoaderState) : LoaderState :=
  { s with cachedVoices := some v, promiseValue := some v }

/-! ### Speech output (utils.ts lines 201-250) -/

/-- The `SpeakOptions` interface. The numeric audio parameters are passed
through to the platform unchanged; they are modelled as rationals. -/
structure SpeakOptions where
  text : String
  lang : Option String := none
  gender : TTSSex := .auto
  rate : ℚ := 1
  pitch : ℚ := 1
  volume : ℚ := 1
deriving DecidableEq, Repr

/-- The platform event that ends playback of one utterance. -/
inductive UtterEvent where
  | ends
  | errors
deriving DecidableEq, Repr

/-- Session states of the spec state machine for speech output. -/
inductive SessStatus where
  | pending
  | speaking
  | completed
  | cancelled
  | errored
deriving DecidableEq, Repr

def isTerminal : SessStatus → Bool
  | .completed => true
  | .cancelled => true
  | .errored => true
  | _ => false

/-- How one `speak()` future behaves. The promise constructed in `speak`
only ever calls `resolve` (both `onend` and `onerror` resolve), so a
`rejected` outcome exists in the model only to state its absence. -/
inductive SpeakResolution where
  | resolved
  | rejected
deriving DecidableEq, Repr

/-- Everything observable about one `speak()` call: how its future
settles, whether platform playback was started, and the final status of
the session it created (none when no session was created). -/
structure SpeakResult where
  resolution : SpeakResolution
  playbackStarted : Bool
  finalStatus : Option SessStatus
deriving DecidableEq, Repr

/-- utils.ts `speak`: return immediately when the capability is absent or
the text is empty or whitespace-only; otherwise playback starts and the
future resolves on either the end event (session `completed`) or the
error event (session `errored`, still resolved). -/
def speak (capability : Bool) (req : SpeakOptions) (ev : UtterEvent) :
    SpeakResult :=
  if capability = false then
    { resolution := .resolved, playbackStarted := false, finalStatus := none }
  else if req.text = "" ∨ jsTrim req.text = "" then
    { resolution := .resolved, playbackStarted := false, finalStatus := none }
  else
    match ev with
    | .ends =>
        { resolution := .resolved, playbackStarted := true,
          finalStatus := some .completed }
    | .errors =>
        { resolution := .resolved, playbackStarted := true,
          finalStatus := some .errored }

/-- Session-level operations on the speech-output controller. The body
of `speak` is NOT atomic: it suspends at `await getVoices()` between the
`stopSpeak()` call and the submission of the utterance, so one `speak`
call is two steps. `speakCall` is the synchronous prefix up to that
suspension point (guards, platform cancel, session created `pending`);
`speakResume i` is the continuation of the i-th session after the await
(voice picked, utterance submitted to the platform queue, session
`speaking`); the indexed playback events end the playback of the i-th
session's submitted utterance. -/
inductive SpeakOp where
  | speakCall (capability : Bool) (text : String)
  | speakResume (i : Nat)
  | stopCall (capability : Bool)
  | playbackEnds (i : Nat)
  | playbackErrors (i : Nat)
deriving DecidableEq, Repr

/-- The history of all sessions ever created, oldest first. -/
structure SpeakState where
  sessions : List SessStatus
deriving DecidableEq, Repr

/-- `window.speechSynthesis.cancel()`: every utterance submitted to the
platform (playing or queued) is removed, driving its session to
`cancelled`. A `pending` session has not submitted its utterance yet, so
the cancel does not touch it: its suspended continuation will still run
and submit. -/
def cancelSubmitted (l : List SessStatus) : List SessStatus :=
  l.map (fun st => if st = .speaking then .cancelled else st)

/-- Drive session `i` from an expected status to the next one; any other
index or status is left unchanged. -/
def transition (l : List SessStatus) (i : Nat) (expect next : SessStatus) :
    List SessStatus :=
  if l[i]? = some expect then l.set i next else l

/-- One controller step. `speakCall` with capability and non-empty
trimmed text runs `stopSpeak()` (cancelling only submitted utterances)
and creates a `pending` session suspended at the catalog await;
`speakResume` submits the pending utterance (`speaking`); `stopCall`
is `stopSpeak()`; the platform events drive a `speaking` session to
`completed` or `errored`. -/
def stepOp (s : SpeakState) : SpeakOp → SpeakState
  | .speakCall capability text =>
      if capability = false then s
      else if text = "" ∨ jsTrim text = "" then s
      else { sessions := cancelSubmitted s.sessions ++ [.pending] }
  | .speakResume i =>
      { sessions := transition s.sessions i .pending .speaking }
  | .stopCall capability =>
      if capability then { sessions := cancelSubmitted s.sessions } else s
  | .playbackEnds i =>
      { sessions := transition s.sessions i .speaking .completed }
  | .playbackErrors i =>
      { sessions := transition s.sessions i .speaking .errored }

/-- Run a sequence of operations from the initial (no sessions) state. -/
def runOps (ops : List SpeakOp) : SpeakState :=
  ops.foldl stepOp { sessions := [] }

/-- The number of sessions in a non-terminal state. -/
def nonTerminalCount (l : List SessStatus) : Nat :=
  l.countP (fun st => !isTerminal st)

/-! ### Speech recognition result delivery (utils.ts lines 293-302) -/

/-- One entry of the platform `results` list: a recognition result with
its top alternative (`r[0].transcript`), any further alternatives, and
the platform final flag. The platform guarantees at least one
alternative, so the top one is a plain field. -/
structure RecSegment where
  alt0 : String
  restAlts : List String
  isFinal : Bool
deriving DecidableEq, Repr

/-- A platform recognition update: the window start `resultIndex` and the
full `results` list. -/
structure RecEventData where
  resultIndex : Nat
  results : List RecSegment
deriving DecidableEq, Repr

/-- The `for` loop of the `onresult` handler: accumulate
`r[0].transcript` of every result in the window and OR the final flags. -/
def onResultLoop : List RecSegment → String → Bool → String × Bool
  | [], acc, fin => (acc, fin)
  | r :: rest, acc, fin => onResultLoop rest (acc ++ r.alt0) (fin || r.isFinal)

/-- utils.ts `rec.onresult`: iterate from `ev.resultIndex` to the end of
`ev.results` and deliver the pair to the `onResult` slot. -/
def handleRecEvent (ev : RecEventData) : String × Bool :=
  onResultLoop (ev.results.drop ev.resultIndex) "" false

/-- Concatenation of a list of strings in order. -/
def joinAll : List String → String
  | [] => ""
  | s :: rest => s ++ joinAll rest

/-- Modelled from the claim wording for comparison: the concatenation of
the text of ALL result alternatives in the window (every alternative of
every result), not only the top alternative of each result. -/
def allAlternativesText (ev : RecEventData) : String :=
  joinAll ((ev.results.drop ev.resultIndex).map
    (fun r => joinAll (r.alt0 :: r.restAlts)))

/-- A loader state whose cache already holds one non-empty voice list,
used to witness the cached-path clause of the concurrency contract. -/
def cachedLoaderState : LoaderState :=
  { cachedVoices := some [⟨"Alice", "alice", "en-US"⟩],
    promiseStarted := true,
    promiseValue := some [⟨"Alice", "alice", "en-US"⟩],
    loadsStarted := 1, changeRegistrations := 0, pollTimers := 0 }

/-! ### Helper lemmas -/

theorem filter_head?_eq_find? {α : Type} (p : α → Bool) (l : List α) :
    (l.filter p).head? = l.find? p := by
  induction l with
  | nil => rfl
  | cons a t ih =>
    by_cases h : p a
    · simp [List.filter_cons, List.find?_cons, h]
    · simp [List.filter_cons, List.find?_cons, h, ih]

theorem onResultLoop_spec (l : List RecSegment) (acc : String) (fin : Bool) :
    onResultLoop l acc fin =
      (acc ++ joinAll (l.map (fun r => r.alt0)),
       fin || l.any (fun r => r.isFinal)) := by
  induction l generalizing acc fin with
  | nil => simp [onResultLoop, joinAll]
  | cons r rest ih =>
    simp [onResultLoop, ih, joinAll, List.any_cons, Bool.or_assoc,
      String.append_assoc]

/-! ### Claim theorems -/

/-- C2 (code bug): the spec and the inline source comment promise that an
input already shaped like a locale tag passes through unchanged, with
`normalizeLang("fr-FR") = "fr-FR"` given as the example. The code tests
the regex `^[a-z]{2,3}(-[A-Z]{2})?$` against the lowercased key, so the
uppercase-region branch can never match: the key of "fr-FR" is "fr-fr",
the shape test on it is false, and normalizeLang returns the unspecified
sentinel instead of the input. Only bare 2-3 letter codes pass through. -/
theorem normalizeLang_region_tag_dropped :
    normalizeLang (some "fr-FR") = none ∧
    jsToLower (jsTrim "fr-FR") = "fr-fr" ∧
    matchesTagShape (jsToLower (jsTrim "fr-FR")).data = false ∧
    normalizeLang (some "fr") = some "fr" := by decide

/-- C9: every input equal to "auto" up to surrounding whitespace and
letter case normalizes to the unspecified sentinel, and normalizeLang is
a total function, so no error is ever raised. -/
theorem normalizeLang_auto_unspecified (s : String)
    (hs : jsToLower (jsTrim s) = "auto") :
    normalizeLang (some s) = none := by
  have hne : s ≠ "" := by
    intro h
    rw [h] at hs
    exact absurd hs (by decide)
  simp [normalizeLang, hne, hs]

theorem normalizeLang_auto_unspecified_witness :
    normalizeLang (some "auto") = none ∧
    normalizeLang (some " Auto ") = none ∧
    normalizeLang (some "AUTO") = none :=
  ⟨normalizeLang_auto_unspecified "auto" (by decide),
   normalizeLang_auto_unspecified " Auto " (by decide),
   normalizeLang_auto_unspecified "AUTO" (by decide)⟩

/-- C3: for a non-empty hint whose language filter over the catalog is
non-empty, pickVoice with the auto gender preference returns the first
voice of the catalog that matches the hint under startsWithLangTag, in
catalog order. -/
theorem pickVoice_first_language_match (C : List Voice) (h : String)
    (hne : h ≠ "") (hex : voicesByLang C h ≠ []) :
    pickVoice C (some h) .auto =
      C.find? (fun v => startsWithLangTag v.lang (some h)) ∧
    ∃ v, pickVoice C (some h) .auto = some v ∧
      startsWithLangTag v.lang (some h) = true := by
  have hw : wantedOf (some h) = h := by simp [wantedOf, hne]
  have hlen : (voicesByLang C h).length ≠ 0 := by
    simpa [List.length_eq_zero] using hex
  have hmain : pickVoice C (some h) .auto =
      C.find? (fun v => startsWithLangTag v.lang (some h)) := by
    rw [pickVoice, hw]
    rw [if_pos hlen]
    rw [genderThenFirst, if_neg (by simp)]
    exact filter_head?_eq_find? _ C
  refine ⟨hmain, ?_⟩
  obtain ⟨v, hv, hvmem⟩ :
      ∃ v, (voicesByLang C h).head? = some v ∧ v ∈ voicesByLang C h := by
    cases hcv : voicesByLang C h with
    | nil => exact absurd hcv hex
    | cons a t => exact ⟨a, rfl, List.mem_cons_self a t⟩
  have hfind : C.find? (fun w => startsWithLangTag w.lang (some h)) =
      some v := by
    rw [← filter_head?_eq_find?]
    simpa [voicesByLang] using hv
  have hvmem2 : v ∈ C ∧ startsWithLangTag v.lang (some h) = true := by
    simpa [voicesByLang, List.mem_filter] using hvmem
  exact ⟨v, hmain.trans hfind, hvmem2.2⟩

theorem pickVoice_first_language_match_witness :
    pickVoice
        [⟨"Kora", "kora-1", "ta-IN"⟩, ⟨"Lena", "lena-1", "ta-IN"⟩]
        (some "ta-IN") .auto =
      List.find? (fun v => startsWithLangTag v.lang (some "ta-IN"))
        [⟨"Kora", "kora-1", "ta-IN"⟩, ⟨"Lena", "lena-1", "ta-IN"⟩] ∧
    ∃ v, pickVoice
        [⟨"Kora", "kora-1", "ta-IN"⟩, ⟨"Lena", "lena-1", "ta-IN"⟩]
        (some "ta-IN") .auto = some v ∧
      startsWithLangTag v.lang (some "ta-IN") = true :=
  pickVoice_first_language_match
    [⟨"Kora", "kora-1", "ta-IN"⟩, ⟨"Lena", "lena-1", "ta-IN"⟩]
    "ta-IN" (by decide) (by decide)

/-- C4: when no catalog voice matches the wanted language, pickVoice
falls back to the English-tagged voices with the gender-then-first rule,
then to the first voice of the whole catalog, and returns none for an
empty catalog whatever the hint and gender preference are. -/
theorem pickVoice_fallback_chain (C : List Voice) (hint : Option String)
    (g : TTSSex)
    (hnolang : voicesByLang C (wantedOf hint) = []) :
    (g = .auto → voicesByLang C "en-US" ≠ [] →
      pickVoice C hint g = (voicesByLang C "en-US").head?) ∧
    (∀ x, (voicesByLang C "en-US").find? (fun v => inferGender v == g) =
        some x → g ≠ .auto → pickVoice C hint g = some x) ∧
    (g ≠ .auto →
      (voicesByLang C "en-US").find? (fun v => inferGender v == g) = none →
      voicesByLang C "en-US" ≠ [] →
      pickVoice C hint g = (voicesByLang C "en-US").head?) ∧
    (voicesByLang C "en-US" = [] → pickVoice C hint g = C.head?) ∧
    (C = [] → pickVoice C hint g = none) := by
  have hlen0 : (voicesByLang C (wantedOf hint)).length = 0 := by
    simp [hnolang]
  refine ⟨?_, ?_, ?_, ?_, ?_⟩
  · intro hg hen
    have hlen : (voicesByLang C "en-US").length ≠ 0 := by
      simpa [List.length_eq_zero] using hen
    rw [pickVoice, if_neg (by simp [hlen0]), if_pos hlen, genderThenFirst,
      if_neg (by simp [hg])]
  · intro x hfind hg
    have hen : voicesByLang C "en-US" ≠ [] := by
      intro h
      rw [h] at hfind
      exact absurd hfind (by simp)
    have hlen : (voicesByLang C "en-US").length ≠ 0 := by
      simpa [List.length_eq_zero] using hen
    rw [pickVoice, if_neg (by simp [hlen0]), if_pos hlen, genderThenFirst,
      if_pos hg, hfind]
  · intro hg hfind hen
    have hlen : (voicesByLang C "en-US").length ≠ 0 := by
      simpa [List.length_eq_zero] using hen
    rw [pickVoice, if_neg (by simp [hlen0]), if_pos hlen, genderThenFirst,
      if_pos hg, hfind]
  · intro hen
    rw [pickVoice, if_neg (by simp [hlen0]), if_neg (by simp [hen])]
  · intro hC
    subst hC
    simp [pickVoice, voicesByLang]

theorem pickVoice_fallback_chain_witness :
    pickVoice [⟨"Bella", "bella-1", "en-GB"⟩] (some "zz-ZZ") .auto =
      (voicesByLang [⟨"Bella", "bella-1", "en-GB"⟩] "en-US").head? ∧
    pickVoice [] (some "zz-ZZ") .auto = none :=
  ⟨(pickVoice_fallback_chain [⟨"Bella", "bella-1", "en-GB"⟩] (some "zz-ZZ")
      .auto (by decide)).1 rfl (by decide),
   (pickVoice_fallback_chain [] (some "zz-ZZ") .auto (by decide)).2.2.2.2 rfl⟩

/-- C10: with a non-empty language filter and an explicit gender
preference matched by no filtered voice, pickVoice returns the first
voice of the language-filtered set and never reaches the English or
whole-catalog fallbacks. -/
theorem pickVoice_gender_unmatched_first (C : List Voice)
    (hint : Option String) (g : TTSSex) (hg : g ≠ .auto)
    (hby : voicesByLang C (wantedOf hint) ≠ [])
    (hnog : ∀ v ∈ voicesByLang C (wantedOf hint), inferGender v ≠ g) :
    pickVoice C hint g = (voicesByLang C (wantedOf hint)).head? := by
  have hfind : (voicesByLang C (wantedOf hint)).find?
      (fun v => inferGender v == g) = none := by
    rw [List.find?_eq_none]
    intro v hv
    simp [hnog v hv]
  have hlen : (voicesByLang C (wantedOf hint)).length ≠ 0 := by
    simpa [List.length_eq_zero] using hby
  rw [pickVoice, if_pos hlen, genderThenFirst, if_pos hg, hfind]

theorem pickVoice_gender_unmatched_first_witness :
    pickVoice [⟨"Kora", "kora-1", "ta-IN"⟩] (some "ta-IN") .female =
      (voicesByLang [⟨"Kora", "kora-1", "ta-IN"⟩]
        (wantedOf (some "ta-IN"))).head? :=
  pickVoice_gender_unmatched_first [⟨"Kora", "kora-1", "ta-IN"⟩]
    (some "ta-IN") .female (by decide) (by decide) (by decide)

/-- C1: the future of speak always settles by resolution and never by
rejection, it resolves with no playback started when the capability is
absent or the trimmed text is empty, and a platform playback error still
resolves the future while the session ends errored. -/
theorem speak_always_resolves (capability : Bool) (req : SpeakOptions)
    (ev : UtterEvent) :
    (speak capability req ev).resolution = .resolved ∧
    (capability = false →
      (speak capability req ev).playbackStarted = false ∧
      (speak capability req ev).finalStatus = none) ∧
    (jsTrim req.text = "" →
      (speak capability req ev).playbackStarted = false ∧
      (speak capability req ev).finalStatus = none) ∧
    (ev = .errors → capability = true → jsTrim req.text ≠ "" →
      (speak capability req ev).resolution = .resolved ∧
      (speak capability req ev).finalStatus = some .errored) := by
  refine ⟨?_, ?_, ?_, ?_⟩
  · by_cases hc : capability = false
    · simp [speak, hc]
    · by_cases ht : req.text = "" ∨ jsTrim req.text = ""
      · simp [speak, hc, ht]
      · cases ev <;> simp [speak, hc, ht]
  · intro hc
    simp [speak, hc]
  · intro ht
    by_cases hc : capability = false
    · simp [speak, hc]
    · simp [speak, hc, ht]
  · rintro rfl hc ht
    have hte : ¬(req.text = "" ∨ jsTrim req.text = "") := by
      rintro (h | h)
      · exact ht (by rw [h]; decide)
      · exact ht h
    simp [speak, hc, hte]

theorem speak_always_resolves_witness :
    (speak true { text := "hello" } .errors).resolution =
      SpeakResolution.resolved ∧
    (speak true { text := "hello" } .errors).finalStatus =
      some SessStatus.errored ∧
    (speak false { text := "hello" } .ends).playbackStarted = false ∧
    (speak true { text := "   " } .ends).playbackStarted = false :=
  ⟨(speak_always_resolves true { text := "hello" } .errors).1,
   ((speak_always_resolves true { text := "hello" } .errors).2.2.2
      rfl rfl (by decide)).2,
   ((speak_always_resolves false { text := "hello" } .ends).2.1 rfl).1,
   ((speak_always_resolves true { text := "   " } .ends).2.2.1 (by decide)).1⟩

/-- C7 (code bug): the claim and the spec say a speak call supersedes
any prior one, so at most one session is ever non-terminal and never
both of two consecutive sessions end completed. The source intends this
(it calls `stopSpeak()` first, with the comment that any current speech
is cancelled first), but it suspends at `await getVoices()` between the
cancel and the utterance submission. Tracing speak(A) followed at once
by speak(B) in the same task: both synchronous prefixes run their cancel
before either utterance exists, then both continuations submit, the
platform queues both utterances, both sessions are simultaneously
non-terminal, and both end completed. When the calls do not interleave
across the await (B issued after A has submitted), the trace does end
[cancelled, completed] as the claim describes. -/
theorem speak_double_call_both_complete :
    (runOps [.speakCall true "hi", .speakCall true "yo", .speakResume 0,
        .speakResume 1, .playbackEnds 0, .playbackEnds 1]).sessions =
      [.completed, .completed] ∧
    nonTerminalCount
        (runOps [.speakCall true "hi", .speakCall true "yo",
          .speakResume 0, .speakResume 1]).sessions = 2 ∧
    (runOps [.speakCall true "hi", .speakResume 0, .speakCall true "yo",
        .speakResume 1, .playbackEnds 1]).sessions =
      [.cancelled, .completed] := by decide

/-- C5 counterexample: in the scenario where the platform never reports
voices, the poll loop resolves only when the attempts counter reaches 11
(the condition is attempts > 10), so the claim that resolution happens
after exactly 10 poll attempts is false. -/
theorem getVoices_poll_budget_cex :
    (runPoll (fun _ => []) 0).2 = 11 ∧
    ¬(runPoll (fun _ => []) 0).2 = 10 := by
  have h : (runPoll (fun _ => []) 0).2 = 11 := by simp [runPoll]
  exact ⟨h, by rw [h]; decide⟩

/-- C5 amended: when the platform never reports a non-empty voice list
and never fires the catalog-changed notification, the poll loop resolves
the shared promise with the empty sequence on its 11th tick (attempts
counter 11, condition attempts > 10), the empty outcome is written to the
cache and the settled promise, the timer and the registration are
released, and every later getVoices call joins the settled promise and
therefore also resolves with the empty sequence. -/
theorem getVoices_timeout_resolves_empty :
    runPoll (fun _ => []) 0 = ([], 11) ∧
    (getVoicesCall [] initLoaderState).2 = .joinedPromise ∧
    (pollTimeout (getVoicesCall [] initLoaderState).1).cachedVoices =
      some [] ∧
    (pollTimeout (getVoicesCall [] initLoaderState).1).promiseValue =
      some [] ∧
    (pollTimeout (getVoicesCall [] initLoaderState).1).pollTimers = 0 ∧
    (pollTimeout (getVoicesCall [] initLoaderState).1).changeRegistrations
      = 0 ∧
    (getVoicesCall []
      (pollTimeout (getVoicesCall [] initLoaderState).1)).2 =
        .joinedPromise ∧
    (getVoicesCall []
      (pollTimeout (getVoicesCall [] initLoaderState).1)).1.promiseValue =
        some [] := by
  refine ⟨by simp [runPoll], ?_⟩
  decide

/-- C6: two getVoices calls issued before the catalog is ready share one
load (one load start, one notification registration, one poll timer, and
the second call leaves the state untouched), both receive the shared
promise which settles to the single cached list, a started load is never
duplicated by any later call, and a non-empty cache resolves every later
call directly with the cached list. -/
theorem getVoices_single_inflight_load (v : List Voice) :
    ((getVoicesCall [] initLoaderState).2 = .joinedPromise ∧
     (getVoicesCall [] ((getVoicesCall [] initLoaderState).1)).2 =
       .joinedPromise ∧
     (getVoicesCall [] ((getVoicesCall [] initLoaderState).1)).1 =
       (getVoicesCall [] initLoaderState).1 ∧
     (getVoicesCall [] initLoaderState).1.loadsStarted = 1 ∧
     (getVoicesCall [] initLoaderState).1.changeRegistrations = 1 ∧
     (getVoicesCall [] initLoaderState).1.pollTimers = 1 ∧
     (completeLoad v ((getVoicesCall [] initLoaderState).1)).promiseValue =
       some v ∧
     (completeLoad v ((getVoicesCall [] initLoaderState).1)).cachedVoices =
       some v) ∧
    (∀ snapshot s, s.promiseStarted = true →
      (getVoicesCall snapshot s).1 = s) ∧
    (∀ snapshot s c, s.cachedVoices = some c → c.length ≠ 0 →
      getVoicesCall snapshot s = (s, .resolvedNow c)) := by
  refine ⟨⟨by decide, by decide, by decide, by decide, by decide, by decide,
    by simp [completeLoad], by simp [completeLoad]⟩, ?_, ?_⟩
  · intro snapshot s hs
    by_cases hc : (s.cachedVoices.getD []).length ≠ 0
    · simp [getVoicesCall, hc]
    · simp [getVoicesCall, hc, hs]
  · intro snapshot s c hc hne
    have hcne : c ≠ [] := by
      intro h
      rw [h] at hne
      exact hne rfl
    simp [getVoicesCall, hc, hcne]

theorem getVoices_single_inflight_load_witness :
    (getVoicesCall [] ((getVoicesCall [] initLoaderState).1)).2 =
      CallOutcome.joinedPromise ∧
    getVoicesCall [] cachedLoaderState =
      (cachedLoaderState,
       .resolvedNow [⟨"Alice", "alice", "en-US"⟩]) :=
  ⟨(getVoices_single_inflight_load []).1.2.1,
   (getVoices_single_inflight_load []).2.2 [] cachedLoaderState
     [⟨"Alice", "alice", "en-US"⟩] rfl (by decide)⟩

/-- C8 counterexample: for an update whose single result carries two
alternatives, the handler delivers only the top alternative, so the
delivered text differs from the concatenation of the text of all result
alternatives in the window that the claim describes. -/
theorem recognizer_all_alternatives_cex :
    (handleRecEvent ⟨0, [⟨"a", ["b"], false⟩]⟩).1 = "a" ∧
    allAlternativesText ⟨0, [⟨"a", ["b"], false⟩]⟩ = "ab" ∧
    (handleRecEvent ⟨0, [⟨"a", ["b"], false⟩]⟩).1 ≠
      allAlternativesText ⟨0, [⟨"a", ["b"], false⟩]⟩ := by decide

/-- C8 amended: for every recognition update the delivered text is the
concatenation of the TOP alternative of each result in the window from
the reported start index to the end, and the delivered final flag is
true exactly when some result in that window is flagged final. -/
theorem recognizer_result_delivery (ev : RecEventData) :
    (handleRecEvent ev).1 =
      joinAll ((ev.results.drop ev.resultIndex).map (fun r => r.alt0)) ∧
    ((handleRecEvent ev).2 = true ↔
      ∃ r ∈ ev.results.drop ev.resultIndex, r.isFinal = true) := by
  constructor
  · simp [handleRecEvent, onResultLoop_spec]
  · simp [handleRecEvent, onResultLoop_spec, List.any_eq_true]

end SpeechCore


